import Mathlib

/-!
Verification of the record-decoder logic of
src/h445_5_python_ana/util/metis_log.py.

The decoder reads (timestamp, json_data) rows from a sqlite store (external),
parses each payload with json.loads (external), and flattens parallel arrays
into per-channel observation rows.  We embed the loop bodies of load_caen and
load_iseg, the dispatch load_db, and the data selection of plot_cean_log.

Modelling conventions:
* Python values decoded from JSON are the inductive type Json; dicts are
  association lists (keys are unique in a Python dict, so lookup is dict
  lookup).
* json.loads is an external collaborator: a raw log entry carries the parse
  outcome directly (none = json.JSONDecodeError).
* Python floats are modelled as rationals; Python exceptions other than the
  caught json.JSONDecodeError are the error side of Except PyError.
* The sqlite query is external: the decoder functions take the fetched
  (timestamp, payload) row list as input.
-/

set_option linter.unusedVariables false

/-- Python exception kinds that the modelled code can raise. -/
inductive PyError where
  | typeError
  | valueError
  | attributeError
  | keyError
  | indexError
deriving Repr, DecidableEq

/-- A Python value as produced by json.loads: None, bool, number (int or
float, merged into one rational-valued case), str, list, dict. -/
inductive Json where
  | null
  | bool (b : Bool)
  | num (q : ℚ)
  | str (s : String)
  | arr (elems : List Json)
  | obj (fields : List (String × Json))

/-- Numeric value of a digit string, most significant first. -/
def digitsVal (ds : List Char) : ℕ :=
  ds.foldl (fun a c => a * 10 + (c.toNat - 48)) 0

/-- Split a leading run of decimal digits from the rest. -/
def takeDigits (cs : List Char) : List Char × List Char :=
  (cs.takeWhile Char.isDigit, cs.dropWhile Char.isDigit)

/-- Significand of a decimal float literal: digits with an optional
fractional part, or a fractional part alone. -/
def parseSignificand (cs : List Char) : Option (ℚ × List Char) :=
  let p := takeDigits cs
  match p.2 with
  | '.' :: r2 =>
    let f := takeDigits r2
    if p.1.isEmpty && f.1.isEmpty then none
    else some ((digitsVal p.1 : ℚ) + (digitsVal f.1 : ℚ) / ((10 : ℚ) ^ f.1.length), f.2)
  | _ => if p.1.isEmpty then none else some ((digitsVal p.1 : ℚ), p.2)

/-- Optionally signed digit run of an exponent part. -/
def parseExpDigits (cs : List Char) : Option (ℤ × List Char) :=
  match cs with
  | '+' :: r =>
    match takeDigits r with
    | ([], _) => none
    | (ds, r2) => some ((digitsVal ds : ℤ), r2)
  | '-' :: r =>
    match takeDigits r with
    | ([], _) => none
    | (ds, r2) => some (-(digitsVal ds : ℤ), r2)
  | _ =>
    match takeDigits cs with
    | ([], _) => none
    | (ds, r2) => some ((digitsVal ds : ℤ), r2)

/-- Exponent part of a float literal; absent means exponent 0. -/
def parseExponent (cs : List Char) : Option (ℤ × List Char) :=
  match cs with
  | 'e' :: r => parseExpDigits r
  | 'E' :: r => parseExpDigits r
  | _ => some (0, cs)

/-- Unsigned float literal followed only by trailing whitespace. -/
def pyFloatStringCore (cs : List Char) : Option ℚ :=
  match parseSignificand cs with
  | none => none
  | some (m, r1) =>
    match parseExponent r1 with
    | none => none
    | some (e, r2) =>
      if r2.dropWhile Char.isWhitespace = [] then some (m * (10 : ℚ) ^ e) else none

/-- Model of the Python builtin float applied to a string (an external
collaborator, reached elementwise through map(float, ...) in load_caen and
load_iseg): surrounding whitespace is stripped, then an optionally signed
decimal literal with optional fraction and exponent is accepted; any other
string raises ValueError.  The inf/nan spellings and digit-group underscores
accepted by CPython are not modelled; no claim depends on them. -/
def pyFloatString (s : String) : Option ℚ :=
  match s.data.dropWhile Char.isWhitespace with
  | '+' :: r => pyFloatStringCore r
  | '-' :: r => (pyFloatStringCore r).map (fun q => -q)
  | cs => pyFloatStringCore cs

/-- Python float applied to one value: numbers and bools convert, strings go
through the literal parser, everything else raises TypeError. -/
def pyFloat : Json → Except PyError ℚ
  | .num q => .ok q
  | .bool b => .ok (if b then 1 else 0)
  | .str s =>
    match pyFloatString s with
    | some q => .ok q
    | none => .error .valueError
  | _ => .error .typeError

/-- Python float applied to a one-character string (iterating map(float, s)
over a str yields its characters): a decimal digit converts, anything else
raises ValueError. -/
def pyFloatChar (c : Char) : Except PyError ℚ :=
  if c.isDigit then .ok ((c.toNat - 48 : ℕ) : ℚ) else .error .valueError

/-- list(map(float, v)): lists convert elementwise, strings iterate over
their characters, dicts iterate over their keys; non-iterable values raise
TypeError. -/
def pyMapFloat : Json → Except PyError (List ℚ)
  | .arr xs => xs.mapM pyFloat
  | .str s => s.data.mapM pyFloatChar
  | .obj fs => fs.mapM (fun kv => pyFloat (.str kv.1))
  | _ => .error .typeError

/-- len(v): defined for lists, strings and dicts; otherwise TypeError. -/
def pyLen : Json → Except PyError ℕ
  | .arr xs => .ok xs.length
  | .str s => .ok s.length
  | .obj fs => .ok fs.length
  | _ => .error .typeError

/-- v[i] for a nonnegative index i: list indexing, string indexing (a
one-character string), IndexError when out of range; dict subscripting by an
integer position raises KeyError; otherwise TypeError. -/
def pyIndex (v : Json) (i : ℕ) : Except PyError Json :=
  match v with
  | .arr xs => if i < xs.length then .ok (xs.getD i .null) else .error .indexError
  | .str s => if i < s.length then .ok (.str (String.mk [s.data.getD i ' '])) else .error .indexError
  | .obj _ => .error .keyError
  | _ => .error .typeError

/-- data.get(key, default): dict lookup with a default; calling .get on a
non-dict raises AttributeError. -/
def pyGet (data : Json) (key : String) (default : Json) : Except PyError Json :=
  match data with
  | .obj fields => .ok ((fields.lookup key).getD default)
  | _ => .error .attributeError

/-- An aware datetime, as produced by datetime.fromtimestamp(ts, tz): the
instant (seconds since the epoch) together with the display offset of its
timezone. -/
structure AwareTime where
  epochSeconds : ℤ
  utcOffsetSeconds : ℤ
deriving Repr, DecidableEq

/-- JST = timezone(timedelta(hours=9)), modelled by its UTC offset in
seconds. -/
def JST : ℤ := 9 * 3600

/-- timezone.utc, modelled by its UTC offset in seconds. -/
def utc : ℤ := 0

/-- datetime.fromtimestamp(ts, tz): the aware datetime denoting instant ts
displayed at the given timezone offset. -/
def fromtimestamp (ts : ℤ) (tzOffsetSeconds : ℤ) : AwareTime :=
  ⟨ts, tzOffsetSeconds⟩

/-- One fetched row of the monitor_logs query: the integer timestamp and the
outcome of json.loads on its json_data column (none when the payload is not
valid JSON, i.e. json.loads raises json.JSONDecodeError). -/
structure RawEntry where
  timestamp : ℤ
  payload : Option Json

/-- One decoded caen observation before timestamps are attached: the channel
index, the four converted numeric values, and the raw status element. -/
structure CaenObs where
  ch : ℕ
  vmon : ℚ
  imon : ℚ
  vset : ℚ
  iset : ℚ
  stat : Json

/-- The five field extractions of the load_caen loop body, in source order:
VMON = list(map(float, data.get("VMON", []))), likewise IMON, VSET, ISET,
and STAT = data.get("STAT", []). -/
def caenArrays (data : Json) : Except PyError (List ℚ × List ℚ × List ℚ × List ℚ × Json) := do
  let VMON ← pyMapFloat (← pyGet data "VMON" (.arr []))
  let IMON ← pyMapFloat (← pyGet data "IMON" (.arr []))
  let VSET ← pyMapFloat (← pyGet data "VSET" (.arr []))
  let ISET ← pyMapFloat (← pyGet data "ISET" (.arr []))
  let STAT ← pyGet data "STAT" (.arr [])
  pure (VMON, IMON, VSET, ISET, STAT)

/-- One iteration i of the record-building loop of load_caen: the indexings
VMON[i] .. ISET[i] are always in range (i < min_len), STAT[i] is the
fallible Python subscript. -/
def caenObsAt (VMON IMON VSET ISET : List ℚ) (STAT : Json) (i : ℕ) : Except PyError CaenObs := do
  let s ← pyIndex STAT i
  pure ⟨i, VMON.getD i 0, IMON.getD i 0, VSET.getD i 0, ISET.getD i 0, s⟩

/-- The body of load_caen for one successfully parsed payload: extract the
five fields, compute min_len as the least of the five lengths, and build one
observation per channel index in 0..min_len-1. -/
def decodeCaenPayload (data : Json) : Except PyError (List CaenObs) := do
  let (VMON, IMON, VSET, ISET, STAT) ← caenArrays data
  let statLen ← pyLen STAT
  let min_len := min (min (min (min VMON.length IMON.length) VSET.length) ISET.length) statLen
  (List.range min_len).mapM (caenObsAt VMON IMON VSET ISET STAT)

/-- One row of the caen DataFrame built by load_caen. -/
structure CaenRecord where
  timestamp_utc : AwareTime
  timestamp_jst : AwareTime
  CH : ℕ
  VMON : ℚ
  IMON : ℚ
  VSET : ℚ
  ISET : ℚ
  STAT : Json

/-- The record dict appended by load_caen for one observation of the entry
at the given timestamp. -/
def caenRecordOfObs (ts : ℤ) (o : CaenObs) : CaenRecord :=
  ⟨fromtimestamp ts utc, fromtimestamp ts JST, o.ch, o.vmon, o.imon, o.vset, o.iset, o.stat⟩

/-- One iteration of the outer loop of load_caen: a payload that failed
json.loads is skipped with a diagnostic naming its timestamp (the except
json.JSONDecodeError branch); a parsed payload is decoded, and any other
exception propagates. -/
def caenEntry (e : RawEntry) : Except PyError (List CaenRecord × List ℤ) :=
  match e.payload with
  | none => .ok ([], [e.timestamp])
  | some data => (decodeCaenPayload data).map (fun obs => (obs.map (caenRecordOfObs e.timestamp), []))

/-- load_caen over the fetched rows: the records list is accumulated across
entries in order; an uncaught exception aborts the whole call before any
DataFrame is produced.  The second component collects the timestamps named
by the diagnostics printed for invalid-JSON entries. -/
def load_caen : List RawEntry → Except PyError (List CaenRecord × List ℤ)
  | [] => .ok ([], [])
  | e :: es => do
    let p ← caenEntry e
    let ps ← load_caen es
    pure (p.1 ++ ps.1, p.2 ++ ps.2)

/-- The rows an entry contributes to load_caen output ([] when the entry is
skipped or the call aborts). -/
def caenEntryRows (e : RawEntry) : List CaenRecord :=
  match caenEntry e with
  | .ok p => p.1
  | .error _ => []

/-- The two field extractions of the load_iseg loop body, in source order:
VMON = list(map(float, data.get("Status.voltageMeasure", []))) and
IMON = list(map(float, data.get("Status.currentMeasure", []))). -/
def isegArrays (data : Json) : Except PyError (List ℚ × List ℚ) := do
  let VMON ← pyMapFloat (← pyGet data "Status.voltageMeasure" (.arr []))
  let IMON ← pyMapFloat (← pyGet data "Status.currentMeasure" (.arr []))
  pure (VMON, IMON)

/-- The body of load_iseg for one successfully parsed payload: channel index,
VMON[i], IMON[i] for i in 0..min_len-1. -/
def decodeIsegPayload (data : Json) : Except PyError (List (ℕ × ℚ × ℚ)) := do
  let (VMON, IMON) ← isegArrays data
  let min_len := min VMON.length IMON.length
  pure ((List.range min_len).map (fun i => (i, VMON.getD i 0, IMON.getD i 0)))

/-- One row of the iseg DataFrame built by load_iseg; the record dict has no
setpoint or status keys. -/
structure IsegRecord where
  timestamp_utc : AwareTime
  timestamp_jst : AwareTime
  CH : ℕ
  VMON : ℚ
  IMON : ℚ
deriving Repr, DecidableEq

/-- The record dict appended by load_iseg for one observation. -/
def isegRecordOfObs (ts : ℤ) (o : ℕ × ℚ × ℚ) : IsegRecord :=
  ⟨fromtimestamp ts utc, fromtimestamp ts JST, o.1, o.2.1, o.2.2⟩

/-- One iteration of the outer loop of load_iseg (same skip-on-invalid-JSON
policy as caen). -/
def isegEntry (e : RawEntry) : Except PyError (List IsegRecord × List ℤ) :=
  match e.payload with
  | none => .ok ([], [e.timestamp])
  | some data => (decodeIsegPayload data).map (fun obs => (obs.map (isegRecordOfObs e.timestamp), []))

/-- load_iseg over the fetched rows. -/
def load_iseg : List RawEntry → Except PyError (List IsegRecord × List ℤ)
  | [] => .ok ([], [])
  | e :: es => do
    let p ← isegEntry e
    let ps ← load_iseg es
    pure (p.1 ++ ps.1, p.2 ++ ps.2)

/-- The rows an entry contributes to load_iseg output. -/
def isegEntryRows (e : RawEntry) : List IsegRecord :=
  match isegEntry e with
  | .ok p => p.1
  | .error _ => []

/-- The decoder output consumed by the charting step, tagged by family. -/
inductive ChannelTable where
  | caen (df : List CaenRecord) (diagnostics : List ℤ)
  | iseg (df : List IsegRecord) (diagnostics : List ℤ)

/-- load_db: dispatch on the module-type tag.  A Python function that falls
off the end returns None, so an unrecognized tag yields no table. -/
def load_db (module_type : String) (entries : List RawEntry) : Except PyError (Option ChannelTable) :=
  if module_type = "caen" then (load_caen entries).map (fun p => some (.caen p.1 p.2))
  else if module_type = "iseg" then (load_iseg entries).map (fun p => some (.iseg p.1 p.2))
  else .ok none

/-- df[df["CH"] == ch]: the rows of channel ch, in order. -/
def channelPartition (df : List CaenRecord) (ch : ℕ) : List CaenRecord :=
  df.filter (fun r => r.CH == ch)

/-- l[::n] for n ≥ 1: the elements whose position is a multiple of n, i.e.
every n-th element starting from the first. -/
def ilocStep {α : Type} (n : ℕ) (l : List α) : List α :=
  (l.enum.filter (fun p => p.1 % n == 0)).map Prod.snd

/-- One Scatter trace handed to the plotting library: its legend name and
its x and y columns. -/
structure Trace where
  name : String
  x : List AwareTime
  y : List ℚ

/-- The data selection of plot_cean_log: partition the frame by channel for
channels 0..max_channel_number-1, then emit one VMON trace and one IMON
trace per channel.  The source computes dfi_reduced = dfi.iloc[::reduce_factor]
in both loops but passes dfi, not dfi_reduced, to go.Scatter; the model
reproduces that faithfully (dfi_reduced is dead). -/
def plot_cean_log (df : List CaenRecord) (reduce_factor : ℕ) (max_channel_number : ℕ) : List Trace :=
  let dfs := (List.range max_channel_number).map (channelPartition df)
  let vmonTraces := dfs.enum.map (fun p =>
    let dfi := p.2
    let dfi_reduced := ilocStep reduce_factor dfi
    Trace.mk ("VMON ch" ++ toString p.1) (dfi.map (fun r => r.timestamp_jst)) (dfi.map (fun r => r.VMON)))
  let imonTraces := dfs.enum.map (fun p =>
    let dfi := p.2
    let dfi_reduced := ilocStep reduce_factor dfi
    Trace.mk ("IMON ch" ++ toString p.1) (dfi.map (fun r => r.timestamp_jst)) (dfi.map (fun r => r.IMON)))
  vmonTraces ++ imonTraces

/-! ### Example inputs used by the witnesses -/

/-- The caen example payload of the specification. -/
def caenExampleData : Json := .obj
  [("VMON", .arr [.num 1, .num 2]), ("IMON", .arr [.num 3]),
   ("VSET", .arr [.num 4, .num 5]), ("ISET", .arr [.num 6, .num 7]),
   ("STAT", .arr [.str "ok", .str "ok"])]

/-- The caen example entry of the specification, timestamp 1700000000. -/
def caenExampleEntry : RawEntry := ⟨1700000000, some caenExampleData⟩

/-- The iseg example payload of the specification. -/
def isegExampleData : Json := .obj
  [("Status.voltageMeasure", .arr [.num 10, .num 20]),
   ("Status.currentMeasure", .arr [.num (1/10), .num (2/10)])]

/-- An iseg example entry carrying the specification payload. -/
def isegExampleEntry : RawEntry := ⟨1700000000, some isegExampleData⟩

/-- The single row load_caen produces for the specification example entry. -/
def caenExampleRecord : CaenRecord :=
  ⟨⟨1700000000, 0⟩, ⟨1700000000, 32400⟩, 0, 1, 3, 4, 6, .str "ok"⟩

/-- An entry whose payload failed json.loads, at timestamp 1700000001. -/
def badJsonEntry : RawEntry := ⟨1700000001, none⟩

/-- A valid-JSON caen payload whose VMON array holds a non-numeric string. -/
def caenBadTypedData : Json := .obj
  [("VMON", .arr [.str "abc"]), ("IMON", .arr [.num 2]),
   ("VSET", .arr [.num 3]), ("ISET", .arr [.num 4]), ("STAT", .arr [.str "ok"])]

/-- An entry carrying the ill-typed caen payload, at timestamp 1700000002. -/
def caenBadTypedEntry : RawEntry := ⟨1700000002, some caenBadTypedData⟩

/-- A valid-JSON iseg payload whose voltage field is a scalar, not an
array. -/
def isegScalarData : Json := .obj
  [("Status.voltageMeasure", .num 7), ("Status.currentMeasure", .arr [.num 1])]

/-- An entry carrying the scalar-field iseg payload, at timestamp
1700000003. -/
def isegScalarEntry : RawEntry := ⟨1700000003, some isegScalarData⟩

/-- A well-formed caen payload in which the key VMON is absent. -/
def caenMissingKeyData : Json := .obj
  [("IMON", .arr [.num 1]), ("VSET", .arr [.num 2]), ("ISET", .arr [.num 3]),
   ("STAT", .arr [.str "ok"])]

/-- An entry carrying the missing-key caen payload, at timestamp
1700000004. -/
def caenMissingKeyEntry : RawEntry := ⟨1700000004, some caenMissingKeyData⟩

/-- A well-formed iseg payload in which the current key is absent. -/
def isegMissingKeyData : Json := .obj
  [("Status.voltageMeasure", .arr [.num 10])]

/-- An entry carrying the missing-key iseg payload, at timestamp
1700000005. -/
def isegMissingKeyEntry : RawEntry := ⟨1700000005, some isegMissingKeyData⟩

/-- A four-row single-channel frame used to exhibit the decimation slip in
plot_cean_log. -/
def plotExampleDf : List CaenRecord :=
  [⟨⟨0, 0⟩, ⟨0, 32400⟩, 0, 1, 5, 0, 0, .null⟩,
   ⟨⟨1, 0⟩, ⟨1, 32400⟩, 0, 2, 6, 0, 0, .null⟩,
   ⟨⟨2, 0⟩, ⟨2, 32400⟩, 0, 3, 7, 0, 0, .null⟩,
   ⟨⟨3, 0⟩, ⟨3, 32400⟩, 0, 4, 8, 0, 0, .null⟩]

/-- A valid caen entry strictly later than the example entry. -/
def caenLaterEntry : RawEntry := ⟨1700000100, some caenExampleData⟩

/-- The single row load_caen produces for the later example entry. -/
def caenLaterRecord : CaenRecord :=
  ⟨⟨1700000100, 0⟩, ⟨1700000100, 32400⟩, 0, 1, 3, 4, 6, .str "ok"⟩

/-! ### Generic lemmas about the Except monad and mapM -/

theorem pure_eq_ok {α : Type} (a : α) :
    (pure a : Except PyError α) = .ok a := rfl

theorem ok_bind {α β : Type} (a : α) (k : α → Except PyError β) :
    (Except.ok a : Except PyError α) >>= k = k a := rfl

theorem error_bind {α β : Type} (err : PyError) (k : α → Except PyError β) :
    (Except.error err : Except PyError α) >>= k = .error err := rfl

theorem bind_ok_inv {α β : Type} {e : Except PyError α} {k : α → Except PyError β} {b : β}
    (h : e >>= k = .ok b) : ∃ a, e = .ok a ∧ k a = .ok b := by
  cases e with
  | error err => exact absurd h (by simp [error_bind])
  | ok a => exact ⟨a, rfl, by simpa [ok_bind] using h⟩

theorem map_ok_inv {α β : Type} {e : Except PyError α} {f : α → β} {b : β}
    (h : e.map f = .ok b) : ∃ a, e = .ok a ∧ f a = b := by
  cases e with
  | error err => exact absurd h (by simp [Except.map])
  | ok a => exact ⟨a, rfl, by simpa [Except.map] using h⟩

theorem mapM_ok_of_forall {α β : Type} (l : List α) (f : α → Except PyError β) (g : α → β)
    (h : ∀ a ∈ l, f a = .ok (g a)) : l.mapM f = .ok (l.map g) := by
  induction l with
  | nil => rfl
  | cons x xs ih =>
    simp only [List.mapM_cons, List.map_cons]
    rw [h x (by simp)]
    rw [ih (fun a ha => h a (by simp [ha]))]
    rfl

theorem mapM_ok_forall₂ {α β : Type} (l : List α) (f : α → Except PyError β) (r : List β)
    (h : l.mapM f = .ok r) : List.Forall₂ (fun a b => f a = .ok b) l r := by
  induction l generalizing r with
  | nil => simp only [List.mapM_nil] at h; cases h; constructor
  | cons x xs ih =>
    simp only [List.mapM_cons] at h
    obtain ⟨a, ha, h2⟩ := bind_ok_inv h
    obtain ⟨rs, hrs, h3⟩ := bind_ok_inv h2
    cases h3
    exact List.Forall₂.cons ha (ih rs hrs)

theorem forall₂_map_eq {α β : Type} {f : β → α} {l : List α} {r : List β}
    (h : List.Forall₂ (fun a b => f b = a) l r) : r.map f = l := by
  induction h with
  | nil => rfl
  | cons h1 h2 ih => simp [ih, h1]

/-! ### Structural lemmas about the decoders -/

theorem load_caen_cons (e : RawEntry) (es : List RawEntry) :
    load_caen (e :: es) =
      caenEntry e >>= fun p => load_caen es >>= fun ps => pure (p.1 ++ ps.1, p.2 ++ ps.2) := rfl

theorem load_iseg_cons (e : RawEntry) (es : List RawEntry) :
    load_iseg (e :: es) =
      isegEntry e >>= fun p => load_iseg es >>= fun ps => pure (p.1 ++ ps.1, p.2 ++ ps.2) := rfl

theorem load_caen_cons_ok {e : RawEntry} {es : List RawEntry}
    {r : List CaenRecord} {d : List ℤ} {rs : List CaenRecord} {ds : List ℤ}
    (h1 : caenEntry e = .ok (r, d)) (h2 : load_caen es = .ok (rs, ds)) :
    load_caen (e :: es) = .ok (r ++ rs, d ++ ds) := by
  rw [load_caen_cons, h1, ok_bind, h2, ok_bind]
  rfl

theorem load_iseg_cons_ok {e : RawEntry} {es : List RawEntry}
    {r : List IsegRecord} {d : List ℤ} {rs : List IsegRecord} {ds : List ℤ}
    (h1 : isegEntry e = .ok (r, d)) (h2 : load_iseg es = .ok (rs, ds)) :
    load_iseg (e :: es) = .ok (r ++ rs, d ++ ds) := by
  rw [load_iseg_cons, h1, ok_bind, h2, ok_bind]
  rfl

theorem load_caen_cons_inv {e : RawEntry} {es : List RawEntry}
    {out : List CaenRecord} {diags : List ℤ}
    (h : load_caen (e :: es) = .ok (out, diags)) :
    ∃ r d rs ds, caenEntry e = .ok (r, d) ∧ load_caen es = .ok (rs, ds) ∧
      out = r ++ rs ∧ diags = d ++ ds := by
  rw [load_caen_cons] at h
  obtain ⟨p, hp, h2⟩ := bind_ok_inv h
  obtain ⟨ps, hps, h3⟩ := bind_ok_inv h2
  simp only [pure_eq_ok, Except.ok.injEq, Prod.mk.injEq] at h3
  exact ⟨p.1, p.2, ps.1, ps.2, by rw [hp], by rw [hps], h3.1.symm, h3.2.symm⟩

theorem load_iseg_cons_inv {e : RawEntry} {es : List RawEntry}
    {out : List IsegRecord} {diags : List ℤ}
    (h : load_iseg (e :: es) = .ok (out, diags)) :
    ∃ r d rs ds, isegEntry e = .ok (r, d) ∧ load_iseg es = .ok (rs, ds) ∧
      out = r ++ rs ∧ diags = d ++ ds := by
  rw [load_iseg_cons] at h
  obtain ⟨p, hp, h2⟩ := bind_ok_inv h
  obtain ⟨ps, hps, h3⟩ := bind_ok_inv h2
  simp only [pure_eq_ok, Except.ok.injEq, Prod.mk.injEq] at h3
  exact ⟨p.1, p.2, ps.1, ps.2, by rw [hp], by rw [hps], h3.1.symm, h3.2.symm⟩

theorem load_caen_append {xs ys : List RawEntry}
    {a : List CaenRecord} {b : List ℤ} {c : List CaenRecord} {d : List ℤ}
    (h1 : load_caen xs = .ok (a, b)) (h2 : load_caen ys = .ok (c, d)) :
    load_caen (xs ++ ys) = .ok (a ++ c, b ++ d) := by
  induction xs generalizing a b with
  | nil =>
    simp only [load_caen, Except.ok.injEq, Prod.mk.injEq] at h1
    obtain ⟨ha, hb⟩ := h1
    subst ha hb
    simpa using h2
  | cons x xs ih =>
    obtain ⟨r, d0, rs, ds, he, hrest, ha, hb⟩ := load_caen_cons_inv h1
    subst ha hb
    rw [List.cons_append, load_caen_cons_ok he (ih hrest)]
    simp [List.append_assoc]

theorem load_iseg_append {xs ys : List RawEntry}
    {a : List IsegRecord} {b : List ℤ} {c : List IsegRecord} {d : List ℤ}
    (h1 : load_iseg xs = .ok (a, b)) (h2 : load_iseg ys = .ok (c, d)) :
    load_iseg (xs ++ ys) = .ok (a ++ c, b ++ d) := by
  induction xs generalizing a b with
  | nil =>
    simp only [load_iseg, Except.ok.injEq, Prod.mk.injEq] at h1
    obtain ⟨ha, hb⟩ := h1
    subst ha hb
    simpa using h2
  | cons x xs ih =>
    obtain ⟨r, d0, rs, ds, he, hrest, ha, hb⟩ := load_iseg_cons_inv h1
    subst ha hb
    rw [List.cons_append, load_iseg_cons_ok he (ih hrest)]
    simp [List.append_assoc]

theorem caenArrays_ok_inv {data : Json} {VMON IMON VSET ISET : List ℚ} {STATJ : Json}
    (h : caenArrays data = .ok (VMON, IMON, VSET, ISET, STATJ)) :
    ∃ vmJ imJ vsJ isJ,
      pyGet data "VMON" (.arr []) = .ok vmJ ∧ pyMapFloat vmJ = .ok VMON ∧
      pyGet data "IMON" (.arr []) = .ok imJ ∧ pyMapFloat imJ = .ok IMON ∧
      pyGet data "VSET" (.arr []) = .ok vsJ ∧ pyMapFloat vsJ = .ok VSET ∧
      pyGet data "ISET" (.arr []) = .ok isJ ∧ pyMapFloat isJ = .ok ISET ∧
      pyGet data "STAT" (.arr []) = .ok STATJ := by
  unfold caenArrays at h
  obtain ⟨vmJ, h1, h⟩ := bind_ok_inv h
  obtain ⟨VM, h2, h⟩ := bind_ok_inv h
  obtain ⟨imJ, h3, h⟩ := bind_ok_inv h
  obtain ⟨IM, h4, h⟩ := bind_ok_inv h
  obtain ⟨vsJ, h5, h⟩ := bind_ok_inv h
  obtain ⟨VS, h6, h⟩ := bind_ok_inv h
  obtain ⟨isJ, h7, h⟩ := bind_ok_inv h
  obtain ⟨IS, h8, h⟩ := bind_ok_inv h
  obtain ⟨st, h9, h⟩ := bind_ok_inv h
  simp only [pure_eq_ok, Except.ok.injEq, Prod.mk.injEq] at h
  obtain ⟨e1, e2, e3, e4, e5⟩ := h
  subst e1 e2 e3 e4 e5
  exact ⟨vmJ, imJ, vsJ, isJ, h1, h2, h3, h4, h5, h6, h7, h8, h9⟩

theorem isegArrays_ok_inv {data : Json} {VMON IMON : List ℚ}
    (h : isegArrays data = .ok (VMON, IMON)) :
    ∃ vmJ imJ,
      pyGet data "Status.voltageMeasure" (.arr []) = .ok vmJ ∧ pyMapFloat vmJ = .ok VMON ∧
      pyGet data "Status.currentMeasure" (.arr []) = .ok imJ ∧ pyMapFloat imJ = .ok IMON := by
  unfold isegArrays at h
  obtain ⟨vmJ, h1, h⟩ := bind_ok_inv h
  obtain ⟨VM, h2, h⟩ := bind_ok_inv h
  obtain ⟨imJ, h3, h⟩ := bind_ok_inv h
  obtain ⟨IM, h4, h⟩ := bind_ok_inv h
  simp only [pure_eq_ok, Except.ok.injEq, Prod.mk.injEq] at h
  obtain ⟨e1, e2⟩ := h
  subst e1 e2
  exact ⟨vmJ, imJ, h1, h2, h3, h4⟩

theorem caenEntry_ok_empty {e : RawEntry} {data : Json}
    {VMON IMON VSET ISET : List ℚ} {STATJ : Json} {statLen : ℕ}
    (hp : e.payload = some data)
    (ha : caenArrays data = .ok (VMON, IMON, VSET, ISET, STATJ))
    (hlen : pyLen STATJ = .ok statLen)
    (hmin : min (min (min (min VMON.length IMON.length) VSET.length) ISET.length) statLen = 0) :
    caenEntry e = .ok ([], []) := by
  simp only [caenEntry, hp, decodeCaenPayload, ha, ok_bind, hlen, hmin, List.range_zero,
    List.mapM_nil, pure_eq_ok, Except.map, List.map_nil]

theorem isegEntry_ok_empty {e : RawEntry} {data : Json} {VMON IMON : List ℚ}
    (hp : e.payload = some data)
    (ha : isegArrays data = .ok (VMON, IMON))
    (hmin : min VMON.length IMON.length = 0) :
    isegEntry e = .ok ([], []) := by
  simp only [isegEntry, hp, decodeIsegPayload, ha, ok_bind, hmin, List.range_zero,
    List.map_nil, pure_eq_ok, Except.map]

theorem decodeCaen_ok_channels {data : Json} {obs : List CaenObs}
    (h : decodeCaenPayload data = .ok obs) :
    ∃ n, obs.map (fun o => o.ch) = List.range n := by
  unfold decodeCaenPayload at h
  obtain ⟨q, hq, h⟩ := bind_ok_inv h
  obtain ⟨VMON, IMON, VSET, ISET, STAT⟩ := q
  simp only at h
  obtain ⟨statLen, hl, h⟩ := bind_ok_inv h
  refine ⟨_, forall₂_map_eq ((mapM_ok_forall₂ _ _ _ h).imp ?_)⟩
  intro i o hio
  unfold caenObsAt at hio
  obtain ⟨s, hs, hio⟩ := bind_ok_inv hio
  simp only [pure_eq_ok, Except.ok.injEq] at hio
  subst hio
  rfl

theorem decodeCaen_ok_length {data : Json} {obs : List CaenObs}
    {VMON IMON VSET ISET : List ℚ} {STATJ : Json} {statLen : ℕ}
    (ha : caenArrays data = .ok (VMON, IMON, VSET, ISET, STATJ))
    (hlen : pyLen STATJ = .ok statLen)
    (h : decodeCaenPayload data = .ok obs) :
    obs.length =
      min (min (min (min VMON.length IMON.length) VSET.length) ISET.length) statLen := by
  unfold decodeCaenPayload at h
  rw [ha, ok_bind] at h
  simp only at h
  rw [hlen, ok_bind] at h
  have := (mapM_ok_forall₂ _ _ _ h).length_eq
  simpa [List.length_range] using this.symm

theorem caenEntry_ok_rows {e : RawEntry} {r : List CaenRecord} {d : List ℤ}
    (h : caenEntry e = .ok (r, d)) :
    (∀ x ∈ r, ∃ o : CaenObs, x = caenRecordOfObs e.timestamp o) ∧
    r.Pairwise (fun a b => a.CH < b.CH) := by
  unfold caenEntry at h
  cases hp : e.payload with
  | none =>
    rw [hp] at h
    simp only [Except.ok.injEq, Prod.mk.injEq] at h
    rw [← h.1]
    exact ⟨by simp, List.Pairwise.nil⟩
  | some data =>
    rw [hp] at h
    obtain ⟨obs, hobs, hmap⟩ := map_ok_inv h
    have hr : r = obs.map (caenRecordOfObs e.timestamp) := by
      have := congrArg Prod.fst hmap
      simpa using this.symm
    subst hr
    constructor
    · intro x hx
      obtain ⟨o, ho, hxo⟩ := List.mem_map.mp hx
      exact ⟨o, hxo.symm⟩
    · obtain ⟨n, hch⟩ := decodeCaen_ok_channels hobs
      rw [List.pairwise_map]
      have hpw := List.pairwise_lt_range n
      rw [← hch, List.pairwise_map] at hpw
      exact hpw

theorem load_caen_mem {es : List RawEntry} {out : List CaenRecord} {diags : List ℤ}
    (h : load_caen es = .ok (out, diags)) :
    ∀ x ∈ out, ∃ e ∈ es, ∃ o : CaenObs, x = caenRecordOfObs e.timestamp o := by
  induction es generalizing out diags with
  | nil =>
    simp only [load_caen, Except.ok.injEq, Prod.mk.injEq] at h
    rw [← h.1]
    simp
  | cons e es ih =>
    obtain ⟨r, d, rs, ds, he, hrest, ho, hd⟩ := load_caen_cons_inv h
    subst ho
    intro x hx
    rcases List.mem_append.mp hx with hx | hx
    · exact ⟨e, by simp, (caenEntry_ok_rows he).1 x hx⟩
    · obtain ⟨e2, he2, o, hx2⟩ := ih hrest x hx
      exact ⟨e2, by simp [he2], o, hx2⟩

theorem isegEntry_ok_rows {e : RawEntry} {r : List IsegRecord} {d : List ℤ}
    (h : isegEntry e = .ok (r, d)) :
    ∀ x ∈ r, ∃ o : ℕ × ℚ × ℚ, x = isegRecordOfObs e.timestamp o := by
  unfold isegEntry at h
  cases hp : e.payload with
  | none =>
    rw [hp] at h
    simp only [Except.ok.injEq, Prod.mk.injEq] at h
    rw [← h.1]
    simp
  | some data =>
    rw [hp] at h
    obtain ⟨obs, hobs, hmap⟩ := map_ok_inv h
    have hr : r = obs.map (isegRecordOfObs e.timestamp) := by
      have := congrArg Prod.fst hmap
      simpa using this.symm
    subst hr
    intro x hx
    obtain ⟨o, ho, hxo⟩ := List.mem_map.mp hx
    exact ⟨o, hxo.symm⟩

theorem load_iseg_mem {es : List RawEntry} {out : List IsegRecord} {diags : List ℤ}
    (h : load_iseg es = .ok (out, diags)) :
    ∀ x ∈ out, ∃ e ∈ es, ∃ o : ℕ × ℚ × ℚ, x = isegRecordOfObs e.timestamp o := by
  induction es generalizing out diags with
  | nil =>
    simp only [load_iseg, Except.ok.injEq, Prod.mk.injEq] at h
    rw [← h.1]
    simp
  | cons e es ih =>
    obtain ⟨r, d, rs, ds, he, hrest, ho, hd⟩ := load_iseg_cons_inv h
    subst ho
    intro x hx
    rcases List.mem_append.mp hx with hx | hx
    · exact ⟨e, by simp, isegEntry_ok_rows he x hx⟩
    · obtain ⟨e2, he2, o, hx2⟩ := ih hrest x hx
      exact ⟨e2, by simp [he2], o, hx2⟩

theorem caenEntryRows_eq_of_ok {e : RawEntry} {p : List CaenRecord × List ℤ}
    (h : caenEntry e = .ok p) : caenEntryRows e = p.1 := by
  simp [caenEntryRows, h]

theorem isegEntryRows_eq_of_ok {e : RawEntry} {p : List IsegRecord × List ℤ}
    (h : isegEntry e = .ok p) : isegEntryRows e = p.1 := by
  simp [isegEntryRows, h]

theorem load_caen_ok_join {es : List RawEntry} {out : List CaenRecord} {diags : List ℤ}
    (h : load_caen es = .ok (out, diags)) :
    out = (es.map caenEntryRows).flatten := by
  induction es generalizing out diags with
  | nil =>
    simp only [load_caen, Except.ok.injEq, Prod.mk.injEq] at h
    simp [← h.1]
  | cons e es ih =>
    obtain ⟨r, d, rs, ds, he, hrest, ho, hd⟩ := load_caen_cons_inv h
    subst ho
    simp [caenEntryRows_eq_of_ok he, ih hrest]

theorem load_iseg_ok_join {es : List RawEntry} {out : List IsegRecord} {diags : List ℤ}
    (h : load_iseg es = .ok (out, diags)) :
    out = (es.map isegEntryRows).flatten := by
  induction es generalizing out diags with
  | nil =>
    simp only [load_iseg, Except.ok.injEq, Prod.mk.injEq] at h
    simp [← h.1]
  | cons e es ih =>
    obtain ⟨r, d, rs, ds, he, hrest, ho, hd⟩ := load_iseg_cons_inv h
    subst ho
    simp [isegEntryRows_eq_of_ok he, ih hrest]

theorem load_caen_entry_ok {es : List RawEntry} {out : List CaenRecord} {diags : List ℤ}
    (h : load_caen es = .ok (out, diags)) :
    ∀ e ∈ es, ∃ p, caenEntry e = .ok p := by
  induction es generalizing out diags with
  | nil => simp
  | cons e es ih =>
    obtain ⟨r, d, rs, ds, he, hrest, ho, hd⟩ := load_caen_cons_inv h
    intro x hx
    rcases List.mem_cons.mp hx with hx | hx
    · exact ⟨(r, d), hx ▸ he⟩
    · exact ih hrest x hx

theorem load_iseg_entry_ok {es : List RawEntry} {out : List IsegRecord} {diags : List ℤ}
    (h : load_iseg es = .ok (out, diags)) :
    ∀ e ∈ es, ∃ p, isegEntry e = .ok p := by
  induction es generalizing out diags with
  | nil => simp
  | cons e es ih =>
    obtain ⟨r, d, rs, ds, he, hrest, ho, hd⟩ := load_iseg_cons_inv h
    intro x hx
    rcases List.mem_cons.mp hx with hx | hx
    · exact ⟨(r, d), hx ▸ he⟩
    · exact ih hrest x hx

/-! ### Claim theorems -/

/-- Claim C1: for a caen raw log entry whose payload is valid JSON and whose
expected fields extract as float-convertible arrays plus a STAT array, the
decoder emits exactly min(len VMON, len IMON, len VSET, len ISET, len STAT)
observations; the observation at channel i carries VMON[i], IMON[i], VSET[i],
ISET[i] converted to floating point and STAT[i] passed through unconverted. -/
theorem caen_valid_payload_emits_min_len_rows (e : RawEntry) (data : Json)
    (VMON IMON VSET ISET : List ℚ) (stats : List Json)
    (hp : e.payload = some data)
    (ha : caenArrays data = .ok (VMON, IMON, VSET, ISET, .arr stats)) :
    caenEntry e = .ok
      (((List.range (min (min (min (min VMON.length IMON.length) VSET.length) ISET.length)
          stats.length)).map
        (fun i => caenRecordOfObs e.timestamp
          (CaenObs.mk i (VMON.getD i 0) (IMON.getD i 0) (VSET.getD i 0) (ISET.getD i 0)
            (stats.getD i .null)))), []) := by
  have hdec : decodeCaenPayload data = .ok
      ((List.range (min (min (min (min VMON.length IMON.length) VSET.length) ISET.length)
          stats.length)).map
        (fun i => CaenObs.mk i (VMON.getD i 0) (IMON.getD i 0) (VSET.getD i 0) (ISET.getD i 0)
          (stats.getD i .null))) := by
    simp only [decodeCaenPayload, ha, ok_bind, pyLen]
    apply mapM_ok_of_forall
    intro i hi
    have hst : i < stats.length :=
      lt_of_lt_of_le (List.mem_range.mp hi) (Nat.min_le_right _ _)
    simp only [caenObsAt, pyIndex, if_pos hst, ok_bind]
    rfl
  simp only [caenEntry, hp, hdec, Except.map, List.map_map]
  rfl

/-- Witness for C1 at the specification example (timestamp 1700000000):
exactly one observation, channel 0, values 1.0, 3.0, 4.0, 6.0, status "ok". -/
theorem caen_valid_payload_emits_min_len_rows_witness :
    caenEntry caenExampleEntry = .ok
      ([⟨⟨1700000000, 0⟩, ⟨1700000000, 32400⟩, 0, 1, 3, 4, 6, .str "ok"⟩], []) := by
  rw [caen_valid_payload_emits_min_len_rows caenExampleEntry caenExampleData
    [1, 2] [3] [4, 5] [6, 7] [.str "ok", .str "ok"] rfl rfl]
  rfl

/-- Claim C2: for an iseg raw log entry whose payload is valid JSON and whose
two expected fields extract as float-convertible arrays, the decoder emits
exactly min(len Status.voltageMeasure, len Status.currentMeasure)
observations, the observation at channel i carrying the i-th element of each
array; an IsegRecord has no setpoint or status fields. -/
theorem iseg_valid_payload_emits_min_len_rows (e : RawEntry) (data : Json)
    (VMON IMON : List ℚ)
    (hp : e.payload = some data)
    (ha : isegArrays data = .ok (VMON, IMON)) :
    isegEntry e = .ok
      (((List.range (min VMON.length IMON.length)).map
        (fun i => isegRecordOfObs e.timestamp (i, VMON.getD i 0, IMON.getD i 0))), []) := by
  simp only [isegEntry, hp, decodeIsegPayload, ha, ok_bind, pure_eq_ok, Except.map, List.map_map]
  rfl

/-- Witness for C2 at the specification example: two observations, channels
0 and 1, voltages 10.0 and 20.0, currents 0.1 and 0.2. -/
theorem iseg_valid_payload_emits_min_len_rows_witness :
    isegEntry isegExampleEntry = .ok
      ([⟨⟨1700000000, 0⟩, ⟨1700000000, 32400⟩, 0, 10, 1/10⟩,
        ⟨⟨1700000000, 0⟩, ⟨1700000000, 32400⟩, 1, 20, 2/10⟩], []) := by
  rw [iseg_valid_payload_emits_min_len_rows isegExampleEntry isegExampleData
    [10, 20] [1/10, 2/10] rfl rfl]
  rfl

/-- Claim C3: an entry whose payload is not valid JSON contributes zero
observations, a diagnostic naming its timestamp is emitted, and every other
(valid) entry of the sequence is still decoded in full — for both decoder
variants, a single malformed record never aborts the whole decode. -/
theorem invalid_json_entry_skipped_and_logged :
    (∀ (pre post : List RawEntry) (bad : RawEntry)
      (out1 : List CaenRecord) (d1 : List ℤ) (out2 : List CaenRecord) (d2 : List ℤ),
      bad.payload = none →
      load_caen pre = .ok (out1, d1) →
      load_caen post = .ok (out2, d2) →
      load_caen (pre ++ bad :: post) = .ok (out1 ++ out2, d1 ++ bad.timestamp :: d2)) ∧
    (∀ (pre post : List RawEntry) (bad : RawEntry)
      (out1 : List IsegRecord) (d1 : List ℤ) (out2 : List IsegRecord) (d2 : List ℤ),
      bad.payload = none →
      load_iseg pre = .ok (out1, d1) →
      load_iseg post = .ok (out2, d2) →
      load_iseg (pre ++ bad :: post) = .ok (out1 ++ out2, d1 ++ bad.timestamp :: d2)) := by
  constructor
  · intro pre post bad out1 d1 out2 d2 hbad h1 h2
    have hent : caenEntry bad = .ok ([], [bad.timestamp]) := by
      simp [caenEntry, hbad]
    have hmid : load_caen (bad :: post) = .ok (out2, bad.timestamp :: d2) := by
      simpa using load_caen_cons_ok hent h2
    exact load_caen_append h1 hmid
  · intro pre post bad out1 d1 out2 d2 hbad h1 h2
    have hent : isegEntry bad = .ok ([], [bad.timestamp]) := by
      simp [isegEntry, hbad]
    have hmid : load_iseg (bad :: post) = .ok (out2, bad.timestamp :: d2) := by
      simpa using load_iseg_cons_ok hent h2
    exact load_iseg_append h1 hmid

/-- Witness for C3: an invalid-JSON entry at timestamp 1700000001 between
two valid caen entries yields both valid rows and the diagnostic
timestamp. -/
theorem invalid_json_entry_skipped_and_logged_witness :
    load_caen [caenExampleEntry, badJsonEntry, caenExampleEntry] =
      .ok ([caenExampleRecord, caenExampleRecord], [1700000001]) :=
  invalid_json_entry_skipped_and_logged.1 [caenExampleEntry] [caenExampleEntry] badJsonEntry
    [caenExampleRecord] [] [caenExampleRecord] [] rfl rfl rfl

/-- Claim C5 (code bug): plot_cean_log computes the decimated frame
dfi.iloc[::reduce_factor] but passes the undecimated dfi to the plotting
call, so at reduce_factor 3 a four-point channel renders all four points
although its every-3rd-row decimation has two; the underlying frame itself
is not altered. -/
theorem plot_renders_full_partition_not_decimated :
    ((plot_cean_log plotExampleDf 3 1).map (fun t => t.y) = [[1, 2, 3, 4], [5, 6, 7, 8]]) ∧
    ((ilocStep 3 (channelPartition plotExampleDf 0)).map (fun r => r.VMON) = [1, 4]) ∧
    ([[1, 2, 3, 4], [5, 6, 7, 8]] : List (List ℚ)) ≠ [[1, 4], [5, 8]] :=
  ⟨rfl, rfl, by decide⟩

/-- Claim C7: for a module-type tag other than caen and iseg, decoder
selection returns no table at all (Python None), not an empty table. -/
theorem unknown_module_type_yields_none (module_type : String) (entries : List RawEntry)
    (h1 : module_type ≠ "caen") (h2 : module_type ≠ "iseg") :
    load_db module_type entries = .ok none := by
  simp [load_db, h1, h2]

/-- Witness for C7 at the tag "mpod". -/
theorem unknown_module_type_yields_none_witness :
    load_db "mpod" [caenExampleEntry] = .ok none :=
  unknown_module_type_yields_none "mpod" [caenExampleEntry] (by decide) (by decide)

/-- Claim C9: only JSON parse failures are recovered.  A payload that is
valid JSON but whose expected field is not an array of float-convertible
elements (VMON holding the string "abc" for caen, a scalar voltage field for
iseg) raises an uncaught exception: the decode of the whole sequence aborts
with no output, although the same neighboring entry decodes fine on its
own. -/
theorem non_float_convertible_payload_aborts_decode :
    load_caen [caenExampleEntry] = .ok ([caenExampleRecord], []) ∧
    load_caen [caenExampleEntry, caenBadTypedEntry, caenExampleEntry] = .error .valueError ∧
    load_iseg [isegScalarEntry, isegExampleEntry] = .error .typeError :=
  ⟨rfl, rfl, rfl⟩

theorem decodeIseg_ok_length {data : Json} {obs : List (ℕ × ℚ × ℚ)} {VMON IMON : List ℚ}
    (ha : isegArrays data = .ok (VMON, IMON))
    (h : decodeIsegPayload data = .ok obs) :
    obs.length = min VMON.length IMON.length := by
  unfold decodeIsegPayload at h
  rw [ha, ok_bind] at h
  simp only [pure_eq_ok, Except.ok.injEq] at h
  rw [← h, List.length_map, List.length_range]

/-- Claim C4: for an input sequence in ascending timestamp order, the decoded
output is ordered by timestamp ascending and then channel ascending: any two
rows in output order are either from a strictly earlier timestamp or from the
same timestamp with a strictly smaller channel. -/
theorem caen_output_sorted_by_timestamp_then_channel
    (entries : List RawEntry) (out : List CaenRecord) (diags : List ℤ)
    (hasc : entries.Pairwise (fun a b => a.timestamp < b.timestamp))
    (h : load_caen entries = .ok (out, diags)) :
    out.Pairwise (fun r s =>
      r.timestamp_utc.epochSeconds < s.timestamp_utc.epochSeconds ∨
      (r.timestamp_utc.epochSeconds = s.timestamp_utc.epochSeconds ∧ r.CH < s.CH)) := by
  induction entries generalizing out diags with
  | nil =>
    simp only [load_caen, Except.ok.injEq, Prod.mk.injEq] at h
    rw [← h.1]
    exact List.Pairwise.nil
  | cons e es ih =>
    obtain ⟨hhead, htail⟩ := List.pairwise_cons.mp hasc
    obtain ⟨r, d, rs, ds, he, hrest, ho, hd⟩ := load_caen_cons_inv h
    subst ho
    rw [List.pairwise_append]
    obtain ⟨hmem, hpw⟩ := caenEntry_ok_rows he
    refine ⟨?_, ih rs ds htail hrest, ?_⟩
    · refine List.Pairwise.imp_of_mem ?_ hpw
      intro a b hma hmb hab
      obtain ⟨oa, hoa⟩ := hmem a hma
      obtain ⟨ob, hob⟩ := hmem b hmb
      subst hoa hob
      exact Or.inr ⟨rfl, hab⟩
    · intro a hma b hmb
      obtain ⟨oa, hoa⟩ := hmem a hma
      obtain ⟨e2, he2, ob, hob⟩ := load_caen_mem hrest b hmb
      subst hoa hob
      exact Or.inl (hhead e2 he2)

/-- Witness for C4 at two entries with timestamps 1700000000 < 1700000100. -/
theorem caen_output_sorted_by_timestamp_then_channel_witness :
    [caenExampleRecord, caenLaterRecord].Pairwise (fun r s =>
      r.timestamp_utc.epochSeconds < s.timestamp_utc.epochSeconds ∨
      (r.timestamp_utc.epochSeconds = s.timestamp_utc.epochSeconds ∧ r.CH < s.CH)) :=
  caen_output_sorted_by_timestamp_then_channel [caenExampleEntry, caenLaterEntry]
    [caenExampleRecord, caenLaterRecord] [] (by decide) rfl

/-- Claim C6: a well-formed payload with an absent expected key is not an
error: the missing key defaults to an empty array, driving min_len to 0, and
the entry contributes zero rows while its decode step succeeds normally —
for both decoder variants. -/
theorem missing_key_defaults_to_empty_and_zero_rows :
    (∀ (e : RawEntry) (fs : List (String × Json)) (VMON IMON VSET ISET : List ℚ)
      (STATJ : Json) (statLen : ℕ),
      e.payload = some (.obj fs) →
      caenArrays (.obj fs) = .ok (VMON, IMON, VSET, ISET, STATJ) →
      pyLen STATJ = .ok statLen →
      (fs.lookup "VMON" = none ∨ fs.lookup "IMON" = none ∨ fs.lookup "VSET" = none ∨
        fs.lookup "ISET" = none ∨ fs.lookup "STAT" = none) →
      caenEntry e = .ok ([], [])) ∧
    (∀ (e : RawEntry) (fs : List (String × Json)) (VMON IMON : List ℚ),
      e.payload = some (.obj fs) →
      isegArrays (.obj fs) = .ok (VMON, IMON) →
      (fs.lookup "Status.voltageMeasure" = none ∨
        fs.lookup "Status.currentMeasure" = none) →
      isegEntry e = .ok ([], [])) := by
  constructor
  · intro e fs VMON IMON VSET ISET STATJ statLen hp ha hlen hmiss
    obtain ⟨vmJ, imJ, vsJ, isJ, h1, h2, h3, h4, h5, h6, h7, h8, h9⟩ := caenArrays_ok_inv ha
    apply caenEntry_ok_empty hp ha hlen
    rcases hmiss with hm | hm | hm | hm | hm
    · simp only [pyGet, hm, Option.getD_none, Except.ok.injEq] at h1
      subst h1
      simp only [pyMapFloat, List.mapM_nil, pure_eq_ok, Except.ok.injEq] at h2
      subst h2
      simp
    · simp only [pyGet, hm, Option.getD_none, Except.ok.injEq] at h3
      subst h3
      simp only [pyMapFloat, List.mapM_nil, pure_eq_ok, Except.ok.injEq] at h4
      subst h4
      simp
    · simp only [pyGet, hm, Option.getD_none, Except.ok.injEq] at h5
      subst h5
      simp only [pyMapFloat, List.mapM_nil, pure_eq_ok, Except.ok.injEq] at h6
      subst h6
      simp
    · simp only [pyGet, hm, Option.getD_none, Except.ok.injEq] at h7
      subst h7
      simp only [pyMapFloat, List.mapM_nil, pure_eq_ok, Except.ok.injEq] at h8
      subst h8
      simp
    · simp only [pyGet, hm, Option.getD_none, Except.ok.injEq] at h9
      subst h9
      simp only [pyLen, List.length_nil, Except.ok.injEq] at hlen
      subst hlen
      simp
  · intro e fs VMON IMON hp ha hmiss
    obtain ⟨vmJ, imJ, h1, h2, h3, h4⟩ := isegArrays_ok_inv ha
    apply isegEntry_ok_empty hp ha
    rcases hmiss with hm | hm
    · simp only [pyGet, hm, Option.getD_none, Except.ok.injEq] at h1
      subst h1
      simp only [pyMapFloat, List.mapM_nil, pure_eq_ok, Except.ok.injEq] at h2
      subst h2
      simp
    · simp only [pyGet, hm, Option.getD_none, Except.ok.injEq] at h3
      subst h3
      simp only [pyMapFloat, List.mapM_nil, pure_eq_ok, Except.ok.injEq] at h4
      subst h4
      simp

/-- Witness for C6: the example caen payload with VMON absent decodes to
zero rows without error. -/
theorem missing_key_defaults_to_empty_and_zero_rows_witness :
    caenEntry caenMissingKeyEntry = .ok ([], []) :=
  missing_key_defaults_to_empty_and_zero_rows.1 caenMissingKeyEntry
    [("IMON", .arr [.num 1]), ("VSET", .arr [.num 2]), ("ISET", .arr [.num 3]),
     ("STAT", .arr [.str "ok"])]
    [] [1] [2] [3] (.arr [.str "ok"]) 1 rfl rfl rfl (Or.inl rfl)

/-- Claim C8: every emitted observation carries timestamp_utc at offset 0 and
timestamp_jst at the fixed offset +9:00 = 32400 seconds, both denoting the
same instant, namely the epoch-seconds timestamp of some input entry. -/
theorem timestamps_same_instant_fixed_jst_offset :
    (∀ (entries : List RawEntry) (out : List CaenRecord) (diags : List ℤ) (r : CaenRecord),
      load_caen entries = .ok (out, diags) → r ∈ out →
      r.timestamp_utc.utcOffsetSeconds = 0 ∧
      r.timestamp_jst.utcOffsetSeconds = 9 * 3600 ∧
      r.timestamp_utc.epochSeconds = r.timestamp_jst.epochSeconds ∧
      ∃ e ∈ entries, r.timestamp_utc.epochSeconds = e.timestamp) ∧
    (∀ (entries : List RawEntry) (out : List IsegRecord) (diags : List ℤ) (r : IsegRecord),
      load_iseg entries = .ok (out, diags) → r ∈ out →
      r.timestamp_utc.utcOffsetSeconds = 0 ∧
      r.timestamp_jst.utcOffsetSeconds = 9 * 3600 ∧
      r.timestamp_utc.epochSeconds = r.timestamp_jst.epochSeconds ∧
      ∃ e ∈ entries, r.timestamp_utc.epochSeconds = e.timestamp) := by
  constructor
  · intro entries out diags r h hr
    obtain ⟨e, he, o, ho⟩ := load_caen_mem h r hr
    subst ho
    exact ⟨rfl, rfl, rfl, e, he, rfl⟩
  · intro entries out diags r h hr
    obtain ⟨e, he, o, ho⟩ := load_iseg_mem h r hr
    subst ho
    exact ⟨rfl, rfl, rfl, e, he, rfl⟩

/-- Witness for C8 at the example record emitted for the example entry. -/
theorem timestamps_same_instant_fixed_jst_offset_witness :
    caenExampleRecord.timestamp_utc.utcOffsetSeconds = 0 ∧
    caenExampleRecord.timestamp_jst.utcOffsetSeconds = 9 * 3600 ∧
    caenExampleRecord.timestamp_utc.epochSeconds =
      caenExampleRecord.timestamp_jst.epochSeconds ∧
    ∃ e ∈ [caenExampleEntry], caenExampleRecord.timestamp_utc.epochSeconds = e.timestamp :=
  timestamps_same_instant_fixed_jst_offset.1 [caenExampleEntry] [caenExampleRecord] []
    caenExampleRecord rfl (by simp)

/-- Claim C10: per-entry atomicity.  On a successful decode the output is the
in-order concatenation of per-entry row blocks; an entry with unparseable
JSON contributes the empty block (the accumulated output is exactly as
before it), and an entry with a decodable payload contributes exactly
min_len rows — for both decoder variants. -/
theorem per_entry_atomicity :
    (∀ (entries : List RawEntry) (out : List CaenRecord) (diags : List ℤ),
      load_caen entries = .ok (out, diags) →
      out = (entries.map caenEntryRows).flatten ∧
      ∀ e ∈ entries,
        (e.payload = none → caenEntryRows e = []) ∧
        (∀ (data : Json) (VMON IMON VSET ISET : List ℚ) (STATJ : Json) (statLen : ℕ),
          e.payload = some data →
          caenArrays data = .ok (VMON, IMON, VSET, ISET, STATJ) →
          pyLen STATJ = .ok statLen →
          (caenEntryRows e).length =
            min (min (min (min VMON.length IMON.length) VSET.length) ISET.length) statLen)) ∧
    (∀ (entries : List RawEntry) (out : List IsegRecord) (diags : List ℤ),
      load_iseg entries = .ok (out, diags) →
      out = (entries.map isegEntryRows).flatten ∧
      ∀ e ∈ entries,
        (e.payload = none → isegEntryRows e = []) ∧
        (∀ (data : Json) (VMON IMON : List ℚ),
          e.payload = some data →
          isegArrays data = .ok (VMON, IMON) →
          (isegEntryRows e).length = min VMON.length IMON.length)) := by
  constructor
  · intro entries out diags h
    refine ⟨load_caen_ok_join h, ?_⟩
    intro e he
    constructor
    · intro hnone
      simp [caenEntryRows, caenEntry, hnone]
    · intro data VMON IMON VSET ISET STATJ statLen hp ha hlen
      obtain ⟨p, hpe⟩ := load_caen_entry_ok h e he
      rw [caenEntryRows_eq_of_ok hpe]
      unfold caenEntry at hpe
      rw [hp] at hpe
      obtain ⟨obs, hobs, hmap⟩ := map_ok_inv hpe
      have h1 : p.1 = obs.map (caenRecordOfObs e.timestamp) := by rw [← hmap]
      rw [h1, List.length_map]
      exact decodeCaen_ok_length ha hlen hobs
  · intro entries out diags h
    refine ⟨load_iseg_ok_join h, ?_⟩
    intro e he
    constructor
    · intro hnone
      simp [isegEntryRows, isegEntry, hnone]
    · intro data VMON IMON hp ha
      obtain ⟨p, hpe⟩ := load_iseg_entry_ok h e he
      rw [isegEntryRows_eq_of_ok hpe]
      unfold isegEntry at hpe
      rw [hp] at hpe
      obtain ⟨obs, hobs, hmap⟩ := map_ok_inv hpe
      have h1 : p.1 = obs.map (isegRecordOfObs e.timestamp) := by rw [← hmap]
      rw [h1, List.length_map]
      exact decodeIseg_ok_length ha hobs

/-- Witness for C10: with one valid and one malformed entry, the output is
the concatenation of the two per-entry blocks (one row then none). -/
theorem per_entry_atomicity_witness :
    [caenExampleRecord] = ([caenExampleEntry, badJsonEntry].map caenEntryRows).flatten :=
  (per_entry_atomicity.1 [caenExampleEntry, badJsonEntry] [caenExampleRecord]
    [1700000001] rfl).1
